import Mathlib

/-!
Shallow embedding of the A2A sample repository's policy-evaluation engine.

Source files embedded:
* `samples/python/agents/finace_server/agent.py` — `FinanceAgent._check_compliance`,
  `FinanceAgent.invoke`, `FinanceAgent.stream`.
* `samples/python/agents/taxi_reimbursement_agent/agent.py` —
  `is_valid_pickup_location`, `is_valid_pickup_time`, `create_taxi_request_form`,
  `reimburse_taxi`, the module-level `request_ids` set.

Modelling conventions:
* Python `float` amounts are modelled as `ℚ`; the engine only compares and adds
  amounts, no claim here depends on floating-point rounding.
* A Python dict expense item is modelled by `RawExpense` (optional fields mirror
  `dict.get` with its defaults).  `float(x)` applied to the raw amount value is
  modelled by `AmountField`: `numeric q` is a value `float` converts to `q`,
  `malformed` is a value on which `float` raises (`ValueError`/`TypeError`).
* The per-day meal accumulator dict `daily_meals` is modelled as a total function
  `String → Nat × ℚ` defaulting to `(0, 0)`, which is observationally the same as
  the source's create-entry-then-increment pattern.
* The f-string violation reasons are modelled by the inductive `Reason`, one
  constructor per `reasons.append` site in the source.
-/

/-- Reimbursement rule of one category: 最高限额, 需要发票, 每日次数限制, 需要额外审批. -/
structure CategoryRule where
  cap : ℚ
  requiresInvoice : Bool
  dailyCountLimit : Option Nat
  requiresExtraApproval : Bool
deriving DecidableEq, Repr

/-- The `reimbursement_rules` dict of `FinanceAgent.__init__`. -/
def reimbursement_rules : List (String × CategoryRule) :=
  [("交通费", ⟨300, true, none, false⟩),
   ("餐饮费", ⟨100, true, some 3, false⟩),
   ("住宿费", ⟨500, true, none, false⟩),
   ("办公用品", ⟨200, true, none, false⟩),
   ("其他", ⟨100, true, none, true⟩)]

/-- Line 65-66 of the finance agent: `if category not in self.reimbursement_rules: category = "其他"`. -/
def resolveCategory (c : String) : String :=
  if (reimbursement_rules.lookup c).isSome then c else "其他"

/-- Line 68: `rule = self.reimbursement_rules[category]` (the argument is the already
resolved category, so the lookup always succeeds; the default is never reached). -/
def lookupRule (c : String) : CategoryRule :=
  (reimbursement_rules.lookup c).getD ⟨100, true, none, true⟩

/-- An expense item after the `.get` defaulting and `float` coercion of lines 59-62. -/
structure Item where
  category : String
  amount : ℚ
  date : String
  hasInvoice : Bool
deriving DecidableEq, Repr

/-- Violation reasons, one constructor per `reasons.append` call site (lines 75, 80, 92). -/
inductive Reason where
  | overCap (category : String) (cap : ℚ)
  | invoiceRequired (category : String)
  | dailyLimit (limit : Nat)
deriving DecidableEq, Repr

/-- The annotated copy of one expense (`expense_result` with `合规` and `原因`, lines 95-103);
`reasons` is empty exactly on the branch where no `原因` key is written. -/
structure Verdict where
  item : Item
  compliant : Bool
  reasons : List Reason
deriving DecidableEq, Repr

/-- The `daily_meals` dict: date ↦ (count, total), absent dates read as `(0, 0)`. -/
def DailyMeals : Type := String → Nat × ℚ

/-- Loop body of `_check_compliance` for one expense (lines 59-103 before the list
appends): computes the verdict and the updated `daily_meals` state. -/
def processExpense (dm : DailyMeals) (e : Item) : Verdict × DailyMeals :=
  let category := resolveCategory e.category
  let rule := lookupRule category
  let st1 : Bool × List Reason :=
    if rule.cap < e.amount then (false, [Reason.overCap category rule.cap]) else (true, [])
  let st2 : Bool × List Reason :=
    if rule.requiresInvoice && !e.hasInvoice then (false, st1.2 ++ [Reason.invoiceRequired category]) else st1
  if category = "餐饮费" then
    let entry := dm e.date
    let newCount := entry.1 + 1
    let dm' : DailyMeals := fun d => if d = e.date then (newCount, entry.2 + e.amount) else dm d
    let lim := rule.dailyCountLimit.getD 0
    let st3 : Bool × List Reason :=
      if lim < newCount then (false, st2.2 ++ [Reason.dailyLimit lim]) else st2
    (⟨e, st3.1, st3.2⟩, dm')
  else
    (⟨e, st2.1, st2.2⟩, dm)

/-- Mutable loop state of `_check_compliance`: `total_amount`, `compliant_expenses`,
`non_compliant_expenses`, `daily_meals`. -/
structure BatchState where
  totalAmount : ℚ
  compliant : List Verdict
  nonCompliant : List Verdict
  dailyMeals : DailyMeals

/-- One loop iteration including the appends of lines 94-103. -/
def evalStep (s : BatchState) (e : Item) : BatchState :=
  let pr := processExpense s.dailyMeals e
  if pr.1.compliant then
    { totalAmount := s.totalAmount + e.amount
      compliant := s.compliant ++ [pr.1]
      nonCompliant := s.nonCompliant
      dailyMeals := pr.2 }
  else
    { totalAmount := s.totalAmount
      compliant := s.compliant
      nonCompliant := s.nonCompliant ++ [pr.1]
      dailyMeals := pr.2 }

/-- Return value of `_check_compliance` (the dict of lines 105-112). -/
structure BatchResult where
  compliantItems : List Verdict
  nonCompliantItems : List Verdict
  compliantTotalAmount : ℚ
  itemCount : Nat
  compliantCount : Nat
  nonCompliantCount : Nat
deriving DecidableEq, Repr

/-- The whole `_check_compliance` loop and result construction, on coerced items. -/
def evalBatch (items : List Item) : BatchResult :=
  let s := items.foldl evalStep
    { totalAmount := 0, compliant := [], nonCompliant := [], dailyMeals := fun _ => (0, 0) }
  { compliantItems := s.compliant
    nonCompliantItems := s.nonCompliant
    compliantTotalAmount := s.totalAmount
    itemCount := items.length
    compliantCount := s.compliant.length
    nonCompliantCount := s.nonCompliant.length }

/-- Specification-side reference: the same per-item pass, but collecting every verdict
in submission order into a single list (used to state order-preservation/partition). -/
def evalVerdictsAux (dm : DailyMeals) : List Item → List Verdict
  | [] => []
  | e :: rest =>
    let pr := processExpense dm e
    pr.1 :: evalVerdictsAux pr.2 rest

/-- All verdicts of a batch in submission order, from the initial empty accumulator. -/
def evalVerdicts (items : List Item) : List Verdict :=
  evalVerdictsAux (fun _ => (0, 0)) items

/-- A raw value for the `金额` field: either one that `float(...)` converts, or one on
which `float(...)` raises. -/
inductive AmountField where
  | numeric (q : ℚ)
  | malformed
deriving DecidableEq, Repr

/-- A raw expense dict; `none` models an absent key (lines 59-62 use `.get` defaults). -/
structure RawExpense where
  category : Option String
  amount : Option AmountField
  date : Option String
  hasInvoice : Option Bool
deriving DecidableEq, Repr

/-- Line 60, `float(expense.get("金额", 0))`: absent key gives `0`, a malformed value
raises (modelled as `none`). -/
def coerceAmount : Option AmountField → Option ℚ
  | none => some 0
  | some (AmountField.numeric q) => some q
  | some AmountField.malformed => none

/-- Lines 59-62: field defaulting and amount coercion for one raw expense; `today` is
the value of `datetime.datetime.now().strftime("%Y-%m-%d")`. -/
def coerceItem (today : String) (raw : RawExpense) : Option Item :=
  match coerceAmount raw.amount with
  | none => none
  | some a =>
    some { category := raw.category.getD "其他"
           amount := a
           date := raw.date.getD today
           hasInvoice := raw.hasInvoice.getD false }

/-- Field coercion for the whole batch: `none` as soon as any item's amount makes
`float(...)` raise (the exception aborts the whole `_check_compliance` call). -/
def coerceAll (today : String) : List RawExpense → Option (List Item)
  | [] => some []
  | r :: rest =>
    match coerceItem today r, coerceAll today rest with
    | some i, some is => some (i :: is)
    | _, _ => none

/-- The full `_check_compliance(expenses)`: `none` models the call raising (a malformed
amount raises `ValueError`/`TypeError` out of the loop), `some r` a normal return. -/
def check_compliance (today : String) (expenses : List RawExpense) : Option BatchResult :=
  (coerceAll today expenses).map evalBatch

/-- Sanity: empty batch evaluates to the all-zero result. -/
example : check_compliance "2024-06-01" [] =
    some ⟨[], [], 0, 0, 0, 0⟩ := rfl

example :
    check_compliance "2024-06-01"
      [⟨some "交通费", some (AmountField.numeric 250), some "2024-06-01", some true⟩,
       ⟨some "交通费", some (AmountField.numeric 350), some "2024-06-01", some true⟩] =
    some ⟨[⟨⟨"交通费", 250, "2024-06-01", true⟩, true, []⟩],
          [⟨⟨"交通费", 350, "2024-06-01", true⟩, false, [Reason.overCap "交通费" 300]⟩],
          250, 2, 1, 1⟩ := by
  simp [check_compliance, coerceAll, coerceItem, coerceAmount, evalBatch, evalStep,
    processExpense, resolveCategory, lookupRule, reimbursement_rules]
  norm_num

/-!
The `invoke`/`stream` entry points of the finance agent.  The query, after the
`isinstance(query, str)`/`json.loads` step, is one of: a string on which
`json.loads` raises, a dict with an `expenses` key (whose value is the list of raw
expense dicts), or any other parsed value.  Serialization (`json.dumps`) is kept
abstract: both entry points carry the same structured result, modelled by
`InvokeResult`.
-/

/-- Parse outcome of the incoming query (lines 127 / 160-170). -/
inductive JsonData where
  | withExpenses (expenses : List RawExpense)
  | other
deriving DecidableEq, Repr

/-- An `invoke`/`stream` query: either a string `json.loads` rejects, or parsed data. -/
inductive Query where
  | invalidJson
  | data (d : JsonData)
deriving DecidableEq, Repr

/-- Structured result of `invoke` (lines 125-139): the serialized `BatchResult`, a
`MISSING_INFO` marker string, or the caught-exception error message of line 139. -/
inductive InvokeResult where
  | ok (r : BatchResult)
  | missingInfo (msg : String)
  | error
deriving DecidableEq, Repr

/-- The `FinanceAgent.invoke` method. -/
def invoke (today : String) (q : Query) : InvokeResult :=
  match q with
  | Query.invalidJson => InvokeResult.missingInfo "MISSING_INFO: 请提供有效的JSON格式报销数据"
  | Query.data (JsonData.withExpenses expenses) =>
    match check_compliance today expenses with
    | some r => InvokeResult.ok r
    | none => InvokeResult.error
  | Query.data JsonData.other =>
    InvokeResult.missingInfo "MISSING_INFO: 请提供包含expenses字段的报销数据，格式为JSON"

/-- One event yielded by the async generator `FinanceAgent.stream`:
`is_task_complete == False` with an `updates` message, or `is_task_complete == True`
with the final content. -/
inductive StreamEvent where
  | inProgress (updates : String)
  | done (content : InvokeResult)
deriving DecidableEq, Repr

/-- The `updates` message of the first yield of `stream` (line 156). -/
def streamStartMsg : String := "正在处理报销合规性检查..."

/-- The `FinanceAgent.stream` method (lines 141-194) as the full finite sequence of
yielded events: every control path first yields the progress notice, then yields
exactly one terminal event. -/
def stream (today : String) (q : Query) : List StreamEvent :=
  match q with
  | Query.invalidJson =>
    [StreamEvent.inProgress streamStartMsg,
     StreamEvent.done (InvokeResult.missingInfo "MISSING_INFO: 请提供有效的JSON格式报销数据")]
  | Query.data (JsonData.withExpenses expenses) =>
    match check_compliance today expenses with
    | some r => [StreamEvent.inProgress streamStartMsg, StreamEvent.done (InvokeResult.ok r)]
    | none => [StreamEvent.inProgress streamStartMsg, StreamEvent.done InvokeResult.error]
  | Query.data JsonData.other =>
    [StreamEvent.inProgress streamStartMsg,
     StreamEvent.done (InvokeResult.missingInfo "MISSING_INFO: 请提供包含expenses字段的报销数据，格式为JSON")]

/-!
Shallow embedding of `taxi_reimbursement_agent/agent.py`.  Python's substring test
`needle in haystack` is modelled over `List Char`; `datetime.strptime` with the five
accepted formats is modelled by a structural parser producing hour/minute pairs
(`strptime` restricts `%H` to 0-23 and `%M` to 0-59 and matches one or two digits);
the module-level `request_ids` set is passed explicitly as a list of issued ids.
-/

/-- Bool test that `n` is a prefix of `l`. -/
def listPre : List Char → List Char → Bool
  | [], _ => true
  | _ :: _, [] => false
  | a :: n, b :: l => a = b && listPre n l

/-- Bool test that `n` occurs contiguously inside `l` (Python `n in l` on strings). -/
def listSub : List Char → List Char → Bool
  | n, [] => listPre n []
  | n, c :: l => listPre n (c :: l) || listSub n (l)

/-- Python's `needle in haystack` substring operator. -/
def containsStr (needle haystack : String) : Bool :=
  listSub needle.data haystack.data

/-- The `VALID_PICKUP_LOCATIONS` list. -/
def VALID_PICKUP_LOCATIONS : List String :=
  ["中关村资本大厦", "中关村资本大厦北门", "海淀区学院南路", "学院南路", "资本大厦"]

/-- The `INVALID_LOCATION_KEYWORDS` list. -/
def INVALID_LOCATION_KEYWORDS : List String :=
  ["中关村", "望京", "国贸"]

/-- The `is_valid_pickup_location` function: first loop returns `True` on an
allow-list hit; second loop returns `False` on a deny-list hit without the primary
building name; final statement returns `False`. -/
def is_valid_pickup_location (location : String) : Bool :=
  if VALID_PICKUP_LOCATIONS.any (fun v => containsStr v location) then true
  else if INVALID_LOCATION_KEYWORDS.any
      (fun k => containsStr k location && !(containsStr "中关村资本大厦" location)) then false
  else false

/-- A wall-clock time as produced by `datetime.strptime(...).time()` for the formats
used here (seconds and microseconds are always zero). -/
structure TimeHM where
  h : Nat
  m : Nat
deriving DecidableEq, Repr

/-- Python `time` comparison (lexicographic on hour then minute). -/
def timeLe (a b : TimeHM) : Bool :=
  decide (a.h < b.h ∨ (a.h = b.h ∧ a.m ≤ b.m))

/-- Split a character list at every occurrence of `sep`. -/
def splitOnChar (sep : Char) : List Char → List (List Char)
  | [] => [[]]
  | c :: l =>
    if c = sep then [] :: splitOnChar sep l
    else
      match splitOnChar sep l with
      | [] => [[c]]
      | h :: r => (c :: h) :: r

/-- Numeric value of a decimal digit character. -/
def charDigit (c : Char) : Nat := c.toNat - 48

/-- Decimal digit characters of `n`, the structural counterpart of `Nat.toDigits 10`. -/
def natChars (n : Nat) : List Char :=
  if n < 10 then [Nat.digitChar n]
  else natChars (n / 10) ++ [Nat.digitChar (n % 10)]
termination_by n
decreasing_by
  exact Nat.div_lt_self (by omega) (by omega)

/-- Numeric value of a digit-character list, inverse of `natChars`. -/
def digitsVal (l : List Char) : Nat := l.foldl (fun a c => a * 10 + charDigit c) 0

/-- A `strptime` numeric field: one or two decimal digits whose value is at most
`hi` (`%H` has `hi = 23`, `%M` has `hi = 59`). -/
def parseField (l : List Char) (hi : Nat) : Option Nat :=
  if 1 ≤ l.length ∧ l.length ≤ 2 ∧ l.all Char.isDigit then
    if l.foldl (fun a c => a * 10 + charDigit c) 0 ≤ hi then
      some (l.foldl (fun a c => a * 10 + charDigit c) 0)
    else none
  else none

/-- Strip a required final character, such as the `分` of `%H点%M分`. -/
def dropLastChar (c : Char) (l : List Char) : Option (List Char) :=
  match l.reverse with
  | [] => none
  | x :: r => if x = c then some r.reverse else none

/-- The `"%H:%M"` format. -/
def parseColon (l : List Char) : Option TimeHM :=
  match splitOnChar ':' l with
  | [hs, ms] =>
    match parseField hs 23, parseField ms 59 with
    | some h, some m => some ⟨h, m⟩
    | _, _ => none
  | _ => none

/-- The `"%H点%M分"` and `"%H时%M分"` formats (`sep` between the fields, `last` at
the end). -/
def parseSepSuffix (sep last : Char) (l : List Char) : Option TimeHM :=
  match splitOnChar sep l with
  | [hs, rest] =>
    match dropLastChar last rest with
    | some ms =>
      match parseField hs 23, parseField ms 59 with
      | some h, some m => some ⟨h, m⟩
      | _, _ => none
    | none => none
  | _ => none

/-- The `"%H点"` and `"%H时"` formats; the minute defaults to 0. -/
def parseHourOnly (last : Char) (l : List Char) : Option TimeHM :=
  match dropLastChar last l with
  | some hs =>
    match parseField hs 23 with
    | some h => some ⟨h, 0⟩
    | none => none
  | none => none

/-- The format loop of `is_valid_pickup_time` (lines 58-65): the five formats are
tried in order and the first success wins. -/
def parsePickupTime (s : String) : Option TimeHM :=
  match parseColon s.data with
  | some t => some t
  | none =>
    match parseSepSuffix '点' '分' s.data with
    | some t => some t
    | none =>
      match parseSepSuffix '时' '分' s.data with
      | some t => some t
      | none =>
        match parseHourOnly '点' s.data with
        | some t => some t
        | none => parseHourOnly '时' s.data

/-- Start of the night window, `time(21, 0)`. -/
def night_start : TimeHM := ⟨21, 0⟩

/-- End of the morning window, `time(5, 0)`. -/
def morning_end : TimeHM := ⟨5, 0⟩

/-- The `is_valid_pickup_time` function: returns the `(bool, error-message)` pair of
the source. -/
def is_valid_pickup_time (pickup_time : String) : Bool × String :=
  match parsePickupTime pickup_time with
  | none => (false, "无法识别的时间格式，请使用 HH:MM 格式")
  | some t =>
    if timeLe night_start t || timeLe t morning_end then (true, "")
    else (false, "上车时间 " ++ pickup_time ++ " 不在允许的时间范围内（晚上9点到次日凌晨5点）")

/-- The `create_taxi_request_form` tool, restricted to the state it touches: `r` is
the value drawn by `random.randint(1000000, 9999999)`, `ids` the current contents of
the module-level `request_ids` set.  Returns the fresh id and the updated set. -/
def create_taxi_request_form (r : Nat) (ids : List String) : String × List String :=
  let request_id := "request_id_" ++ toString r
  (request_id, ids.insert request_id)

/-- Decision of `reimburse_taxi`, with the reason of each `return` site. -/
inductive TaxiReason where
  | invalidRequestId
  | badLocation (location : String)
  | badTime (err : String)
deriving DecidableEq, Repr

/-- Result dict of `reimburse_taxi`: `status` 批准 or 拒绝 with a single reason. -/
inductive TaxiDecision where
  | approved (request_id : String)
  | rejected (request_id : String) (reason : TaxiReason)
deriving DecidableEq, Repr

/-- The `reimburse_taxi` tool (lines 171-200): ledger check, then location, then
time, each failing check returning immediately. -/
def reimburse_taxi (ids : List String) (request_id pickup_location pickup_time : String) :
    TaxiDecision :=
  if request_id ∉ ids then
    TaxiDecision.rejected request_id TaxiReason.invalidRequestId
  else if !(is_valid_pickup_location pickup_location) then
    TaxiDecision.rejected request_id (TaxiReason.badLocation pickup_location)
  else if !(is_valid_pickup_time pickup_time).1 then
    TaxiDecision.rejected request_id (TaxiReason.badTime (is_valid_pickup_time pickup_time).2)
  else
    TaxiDecision.approved request_id

example : (is_valid_pickup_time "22:00").1 = true := by decide
example : (is_valid_pickup_time "4点30分").1 = true := by decide
example : is_valid_pickup_location "中关村资本大厦北门" = true := by decide
example : is_valid_pickup_location "望京" = false := by decide
example :
    reimburse_taxi ["request_id_1234567"] "request_id_1234567" "中关村资本大厦" "23:30" =
      TaxiDecision.approved "request_id_1234567" := by decide

/-!
Structural lemmas about the batch evaluation loop.
-/

/-- The verdict produced for an expense carries that expense unchanged. -/
theorem processExpense_item (dm : DailyMeals) (e : Item) :
    (processExpense dm e).1.item = e := by
  simp only [processExpense]
  split <;> rfl

/-- Stripping the annotations from the in-order verdict list gives back the input. -/
theorem evalVerdictsAux_map_item (items : List Item) :
    ∀ dm : DailyMeals, (evalVerdictsAux dm items).map (fun v => v.item) = items := by
  induction items with
  | nil => intro dm; rfl
  | cons e rest ih =>
    intro dm
    simp only [evalVerdictsAux, List.map_cons, processExpense_item, ih]

/-- The two filtered halves of a list partition its length. -/
theorem length_filter_partition {α : Type} (p : α → Bool) (l : List α) :
    (l.filter p).length + (l.filter (fun a => !(p a))).length = l.length := by
  induction l with
  | nil => rfl
  | cons a t ih =>
    by_cases h : p a <;> simp [List.filter_cons, h] <;> omega

/-- Unfolding the loop from an arbitrary intermediate state: the compliant and
non-compliant lists extend by the corresponding filters of the in-order verdicts, and
the running total extends by the compliant amounts. -/
theorem foldl_evalStep_decomp (items : List Item) :
    ∀ s : BatchState,
      (items.foldl evalStep s).compliant
          = s.compliant ++ (evalVerdictsAux s.dailyMeals items).filter (fun v => v.compliant)
        ∧ (items.foldl evalStep s).nonCompliant
          = s.nonCompliant ++ (evalVerdictsAux s.dailyMeals items).filter (fun v => !v.compliant)
        ∧ (items.foldl evalStep s).totalAmount
          = s.totalAmount
            + ((((evalVerdictsAux s.dailyMeals items).filter (fun v => v.compliant)).map
                (fun v => v.item.amount)).sum) := by
  induction items with
  | nil => intro s; simp [evalVerdictsAux]
  | cons e rest ih =>
    intro s
    have hstep : List.foldl evalStep s (e :: rest) = List.foldl evalStep (evalStep s e) rest := rfl
    by_cases h : (processExpense s.dailyMeals e).1.compliant
    · have hs : evalStep s e =
          { totalAmount := s.totalAmount + e.amount
            compliant := s.compliant ++ [(processExpense s.dailyMeals e).1]
            nonCompliant := s.nonCompliant
            dailyMeals := (processExpense s.dailyMeals e).2 } := by
        unfold evalStep
        simp [h]
      obtain ⟨ih1, ih2, ih3⟩ := ih (evalStep s e)
      rw [hstep]
      refine ⟨?_, ?_, ?_⟩
      · rw [ih1, hs]
        simp [evalVerdictsAux, List.filter_cons, h]
      · rw [ih2, hs]
        simp [evalVerdictsAux, List.filter_cons, h]
      · rw [ih3, hs]
        simp [evalVerdictsAux, List.filter_cons, h, processExpense_item]
        ring
    · have hs : evalStep s e =
          { totalAmount := s.totalAmount
            compliant := s.compliant
            nonCompliant := s.nonCompliant ++ [(processExpense s.dailyMeals e).1]
            dailyMeals := (processExpense s.dailyMeals e).2 } := by
        unfold evalStep
        simp [h]
      obtain ⟨ih1, ih2, ih3⟩ := ih (evalStep s e)
      rw [hstep]
      have hb : (processExpense s.dailyMeals e).1.compliant = false := by
        simpa using h
      refine ⟨?_, ?_, ?_⟩
      · rw [ih1, hs]
        simp [evalVerdictsAux, List.filter_cons, hb]
      · rw [ih2, hs]
        simp [evalVerdictsAux, List.filter_cons, hb]
      · rw [ih3, hs]
        simp [evalVerdictsAux, List.filter_cons, hb]

/-- Packaged form of `foldl_evalStep_decomp` for the whole batch evaluator. -/
theorem evalBatch_decomp (items : List Item) :
    (evalBatch items).compliantItems = (evalVerdicts items).filter (fun v => v.compliant)
      ∧ (evalBatch items).nonCompliantItems = (evalVerdicts items).filter (fun v => !v.compliant)
      ∧ (evalBatch items).compliantTotalAmount
        = (((evalVerdicts items).filter (fun v => v.compliant)).map (fun v => v.item.amount)).sum
      ∧ (evalBatch items).itemCount = items.length
      ∧ (evalBatch items).compliantCount
        = ((evalVerdicts items).filter (fun v => v.compliant)).length
      ∧ (evalBatch items).nonCompliantCount
        = ((evalVerdicts items).filter (fun v => !v.compliant)).length := by
  obtain ⟨h1, h2, h3⟩ := foldl_evalStep_decomp items
    { totalAmount := 0, compliant := [], nonCompliant := [], dailyMeals := fun _ => (0, 0) }
  simp only [Prod.mk_zero_zero] at h1 h2 h3
  unfold evalBatch evalVerdicts
  refine ⟨?_, ?_, ?_, rfl, ?_, ?_⟩ <;>
    simp [h1, h2, h3]

/-!
Claim theorems.
-/

/-- C1: for every batch of expense items, the `BatchResult` returned by the compliance
evaluation satisfies `compliant_count + non_compliant_count == item_count`, and
`compliant_total_amount` equals the sum of the amounts of the items placed in
`compliant_items`. -/
theorem batch_counts_and_total_invariant (today : String) (expenses : List RawExpense)
    (r : BatchResult) (h : check_compliance today expenses = some r) :
    r.compliantCount + r.nonCompliantCount = r.itemCount
      ∧ r.compliantTotalAmount = (r.compliantItems.map (fun v => v.item.amount)).sum := by
  obtain ⟨items, hco, he⟩ : ∃ items, coerceAll today expenses = some items ∧ evalBatch items = r := by
    unfold check_compliance at h
    cases hco : coerceAll today expenses with
    | none => rw [hco] at h; cases h
    | some items =>
      rw [hco] at h
      exact ⟨items, rfl, by simpa using h⟩
  subst he
  obtain ⟨d1, d2, d3, d4, d5, d6⟩ := evalBatch_decomp items
  have hlen : (evalVerdicts items).length = items.length := by
    have hm := evalVerdictsAux_map_item items (fun _ => (0, 0))
    calc (evalVerdicts items).length
        = ((evalVerdicts items).map (fun v => v.item)).length := by simp
      _ = items.length := by rw [evalVerdicts, hm]
  constructor
  · have hp := length_filter_partition (fun v : Verdict => v.compliant) (evalVerdicts items)
    rw [d5, d6, d4]
    omega
  · rw [d3, d1]

/-- C1 witness: the invariant instantiated on a concrete two-item batch. -/
theorem batch_counts_and_total_invariant_witness :
    check_compliance "2024-06-01"
        [⟨some "交通费", some (AmountField.numeric 250), some "2024-06-01", some true⟩,
         ⟨some "交通费", some (AmountField.numeric 350), some "2024-06-01", some true⟩]
      = some ⟨[⟨⟨"交通费", 250, "2024-06-01", true⟩, true, []⟩],
              [⟨⟨"交通费", 350, "2024-06-01", true⟩, false, [Reason.overCap "交通费" 300]⟩],
              250, 2, 1, 1⟩
      ∧ ((1 : Nat) + 1 = 2
         ∧ (250 : ℚ)
           = ([(⟨⟨"交通费", 250, "2024-06-01", true⟩, true, []⟩ : Verdict)].map
              (fun v => v.item.amount)).sum) := by
  have h : check_compliance "2024-06-01"
      [⟨some "交通费", some (AmountField.numeric 250), some "2024-06-01", some true⟩,
       ⟨some "交通费", some (AmountField.numeric 350), some "2024-06-01", some true⟩]
      = some ⟨[⟨⟨"交通费", 250, "2024-06-01", true⟩, true, []⟩],
              [⟨⟨"交通费", 350, "2024-06-01", true⟩, false, [Reason.overCap "交通费" 300]⟩],
              250, 2, 1, 1⟩ := by
    simp [check_compliance, coerceAll, coerceItem, coerceAmount, evalBatch, evalStep,
      processExpense, resolveCategory, lookupRule, reimbursement_rules]
    norm_num
  exact ⟨h, batch_counts_and_total_invariant "2024-06-01" _ _ h⟩

/-- C10: evaluating an empty batch succeeds and returns the all-empty, all-zero
`BatchResult`. -/
theorem empty_batch_result (today : String) :
    check_compliance today []
      = some { compliantItems := [], nonCompliantItems := [], compliantTotalAmount := 0,
               itemCount := 0, compliantCount := 0, nonCompliantCount := 0 } := rfl

/-- C3: for every input, the streaming form yields exactly the non-terminal progress
event followed by exactly one terminal event, and the terminal payload is exactly the
synchronous `invoke` result on the same input (serialization kept abstract: both
carry the same structured `InvokeResult`). -/
theorem stream_refines_invoke (today : String) (q : Query) :
    stream today q
      = [StreamEvent.inProgress streamStartMsg, StreamEvent.done (invoke today q)] := by
  cases q with
  | invalidJson => rfl
  | data d =>
    cases d with
    | withExpenses expenses =>
      simp only [stream, invoke]
      cases h : check_compliance today expenses <;> simp
    | other => rfl

/-- C9: batch evaluation is a pure function of the ordered input (determinism), never
reorders items (both output lists are the order-preserving filters of the in-order
verdict list, whose underlying items are exactly the input), and the counts match the
partition of the input. -/
theorem batch_deterministic_no_reorder (items : List Item) :
    (∀ items2 : List Item, items = items2 → evalBatch items = evalBatch items2)
      ∧ (evalBatch items).compliantItems = (evalVerdicts items).filter (fun v => v.compliant)
      ∧ (evalBatch items).nonCompliantItems
        = (evalVerdicts items).filter (fun v => !v.compliant)
      ∧ (evalVerdicts items).map (fun v => v.item) = items
      ∧ (evalBatch items).compliantCount + (evalBatch items).nonCompliantCount
        = (evalBatch items).itemCount
      ∧ (evalBatch items).compliantTotalAmount
        = (((evalBatch items).compliantItems).map (fun v => v.item.amount)).sum := by
  obtain ⟨d1, d2, d3, d4, d5, d6⟩ := evalBatch_decomp items
  have hlen : (evalVerdicts items).length = items.length := by
    have hm := evalVerdictsAux_map_item items (fun _ => (0, 0))
    calc (evalVerdicts items).length
        = ((evalVerdicts items).map (fun v => v.item)).length := by simp
      _ = items.length := by rw [evalVerdicts, hm]
  refine ⟨fun _ h => by rw [h], d1, d2, ?_, ?_, ?_⟩
  · rw [evalVerdicts]; exact evalVerdictsAux_map_item items _
  · have hp := length_filter_partition (fun v : Verdict => v.compliant) (evalVerdicts items)
    rw [d5, d6, d4]
    omega
  · rw [d3, d1]

/-- C9 witness: determinism and the partition equalities at a concrete one-item batch. -/
theorem batch_deterministic_no_reorder_witness :
    evalBatch [⟨"餐饮费", 80, "2024-06-01", true⟩] = evalBatch [⟨"餐饮费", 80, "2024-06-01", true⟩]
      ∧ (evalVerdicts [⟨"餐饮费", 80, "2024-06-01", true⟩]).map (fun v => v.item)
        = [⟨"餐饮费", 80, "2024-06-01", true⟩] := by
  exact ⟨(batch_deterministic_no_reorder _).1 _ rfl,
         (batch_deterministic_no_reorder [⟨"餐饮费", 80, "2024-06-01", true⟩]).2.2.2.1⟩

/-- C7 counterexample: an item whose amount field makes `float(...)` raise is not
coerced to 0 — `_check_compliance` raises (modelled `none`) instead of returning the
batch that would result from evaluating the item with amount 0, and `invoke` returns
the caught-exception error marker rather than a `BatchResult`. -/
theorem malformed_amount_aborts_call :
    check_compliance "2024-01-01"
        [⟨some "餐饮费", some AmountField.malformed, some "2024-01-01", some true⟩] = none
      ∧ check_compliance "2024-01-01"
          [⟨some "餐饮费", some AmountField.malformed, some "2024-01-01", some true⟩]
        ≠ some (evalBatch [⟨"餐饮费", 0, "2024-01-01", true⟩])
      ∧ invoke "2024-01-01" (Query.data (JsonData.withExpenses
          [⟨some "餐饮费", some AmountField.malformed, some "2024-01-01", some true⟩]))
        = InvokeResult.error := by
  refine ⟨rfl, ?_, rfl⟩
  simp [check_compliance, coerceAll, coerceItem, coerceAmount]

/-- C7 amended: a missing amount is coerced to 0 and a missing date defaults to the
evaluation date, and such items are evaluated normally; an invalid (non-numeric)
amount, however, aborts the batch evaluation — `invoke` returns the error marker
instead of a `BatchResult` (no exception escapes the public entry point). -/
theorem missing_fields_defaulted (today : String) (cat : Option String) (d : Option String)
    (inv : Option Bool) :
    coerceItem today ⟨cat, none, d, inv⟩
        = some ⟨cat.getD "其他", 0, d.getD today, inv.getD false⟩
      ∧ check_compliance today [⟨cat, none, d, inv⟩]
        = some (evalBatch [⟨cat.getD "其他", 0, d.getD today, inv.getD false⟩])
      ∧ coerceItem today ⟨cat, none, none, inv⟩
        = some ⟨cat.getD "其他", 0, today, inv.getD false⟩
      ∧ invoke today (Query.data (JsonData.withExpenses
          [⟨cat, some AmountField.malformed, d, inv⟩])) = InvokeResult.error :=
  ⟨rfl, rfl, rfl, rfl⟩

/-- Category resolution is the identity on the meal category. -/
theorem resolveCategory_meal : resolveCategory "餐饮费" = "餐饮费" := rfl

/-- The rule looked up for the meal category: cap 100, invoice required, daily limit 3. -/
theorem lookupRule_meal : lookupRule "餐饮费" = ⟨100, true, some 3, false⟩ := rfl

/-- C2: a meal item always increments its date's accumulator count (whatever the
verdict so far), is marked for the daily limit exactly when the post-increment count
exceeds 3, and four meal items on one date, each within the per-item cap, produce
three verdicts without the daily-limit reason followed by a fourth that is
non-compliant with it — whatever the four amounts and invoice flags are. -/
theorem meal_count_unconditional_fourth_rejected
    (dm : DailyMeals) (e : Item) (d : String) (a1 a2 a3 a4 : ℚ) (i1 i2 i3 i4 : Bool)
    (he : e.category = "餐饮费")
    (h1 : a1 ≤ 100) (h2 : a2 ≤ 100) (h3 : a3 ≤ 100) (h4 : a4 ≤ 100) :
    (((processExpense dm e).2 e.date).1 = (dm e.date).1 + 1
      ∧ (Reason.dailyLimit 3 ∈ (processExpense dm e).1.reasons ↔ 3 < (dm e.date).1 + 1))
    ∧ (evalVerdicts
        [⟨"餐饮费", a1, d, i1⟩, ⟨"餐饮费", a2, d, i2⟩, ⟨"餐饮费", a3, d, i3⟩,
         ⟨"餐饮费", a4, d, i4⟩]).map
          (fun v => (v.compliant, decide (Reason.dailyLimit 3 ∈ v.reasons)))
      = [(i1, false), (i2, false), (i3, false), (false, true)] := by
  constructor
  · obtain ⟨c, a, dt, inv⟩ := e
    simp only [Item.category] at he
    subst he
    constructor
    · simp [processExpense, resolveCategory_meal, lookupRule_meal]
    · by_cases hlim : 3 < (dm dt).1 + 1 <;>
        by_cases hc : (100 : ℚ) < a <;> cases inv <;>
          simp [processExpense, resolveCategory_meal, lookupRule_meal, hc, hlim]
  · cases i1 <;> cases i2 <;> cases i3 <;> cases i4 <;>
      simp [evalVerdicts, evalVerdictsAux, processExpense, resolveCategory_meal,
        lookupRule_meal, not_lt.mpr h1, not_lt.mpr h2, not_lt.mpr h3, not_lt.mpr h4]

/-- C2 witness: the meal-count behaviour at a concrete date, amount 50 and all
invoices present. -/
theorem meal_count_unconditional_fourth_rejected_witness :
    (((processExpense (fun _ => (0, 0)) ⟨"餐饮费", 50, "2024-06-01", true⟩).2 "2024-06-01").1
        = 0 + 1
      ∧ (Reason.dailyLimit 3
            ∈ (processExpense (fun _ => (0, 0)) ⟨"餐饮费", 50, "2024-06-01", true⟩).1.reasons
          ↔ 3 < 0 + 1))
    ∧ (evalVerdicts
        [⟨"餐饮费", 50, "2024-06-01", true⟩, ⟨"餐饮费", 50, "2024-06-01", true⟩,
         ⟨"餐饮费", 50, "2024-06-01", true⟩, ⟨"餐饮费", 50, "2024-06-01", true⟩]).map
          (fun v => (v.compliant, decide (Reason.dailyLimit 3 ∈ v.reasons)))
      = [(true, false), (true, false), (true, false), (false, true)] :=
  meal_count_unconditional_fourth_rejected (fun _ => (0, 0))
    ⟨"餐饮费", 50, "2024-06-01", true⟩ "2024-06-01" 50 50 50 50 true true true true rfl
    (by norm_num) (by norm_num) (by norm_num) (by norm_num)

/-!
Lemmas for the taxi time validator: every parsed time has a legal hour and minute
(`strptime` guarantees `%H` is 0-23 and `%M` is 0-59).
-/

/-- A parsed `strptime` numeric field never exceeds its bound. -/
theorem parseField_le (l : List Char) (hi n : Nat) (h : parseField l hi = some n) : n ≤ hi := by
  unfold parseField at h
  split at h
  · split at h
    · next hle => injection h with h; omega
    · cases h
  · cases h

/-- Bounds of a time parsed from the `"%H:%M"` format. -/
theorem parseColon_bounds (l : List Char) (t : TimeHM) (h : parseColon l = some t) :
    t.h ≤ 23 ∧ t.m ≤ 59 := by
  unfold parseColon at h
  split at h
  · split at h
    · next hh hm =>
      injection h with h
      subst h
      exact ⟨parseField_le _ _ _ hh, parseField_le _ _ _ hm⟩
    · cases h
  · cases h

/-- Bounds of a time parsed from the `"%H点%M分"`-shaped formats. -/
theorem parseSepSuffix_bounds (sep last : Char) (l : List Char) (t : TimeHM)
    (h : parseSepSuffix sep last l = some t) : t.h ≤ 23 ∧ t.m ≤ 59 := by
  unfold parseSepSuffix at h
  split at h
  · split at h
    · split at h
      · next hh hm =>
        injection h with h
        subst h
        exact ⟨parseField_le _ _ _ hh, parseField_le _ _ _ hm⟩
      · cases h
    · cases h
  · cases h

/-- Bounds of a time parsed from the hour-only formats. -/
theorem parseHourOnly_bounds (last : Char) (l : List Char) (t : TimeHM)
    (h : parseHourOnly last l = some t) : t.h ≤ 23 ∧ t.m ≤ 59 := by
  unfold parseHourOnly at h
  split at h
  · split at h
    · next hh =>
      injection h with h
      subst h
      exact ⟨parseField_le _ _ _ hh, by simp⟩
    · cases h
  · cases h

/-- Any successfully parsed pickup time has hour ≤ 23 and minute ≤ 59. -/
theorem parsePickupTime_bounds (s : String) (t : TimeHM)
    (h : parsePickupTime s = some t) : t.h ≤ 23 ∧ t.m ≤ 59 := by
  unfold parsePickupTime at h
  split at h
  · next heq => injection h with h; subst h; exact parseColon_bounds _ _ heq
  · split at h
    · next heq => injection h with h; subst h; exact parseSepSuffix_bounds _ _ _ _ heq
    · split at h
      · next heq => injection h with h; subst h; exact parseSepSuffix_bounds _ _ _ _ heq
      · split at h
        · next heq => injection h with h; subst h; exact parseHourOnly_bounds _ _ _ heq
        · exact parseHourOnly_bounds _ _ _ h

/-- C4: for every parseable pickup time, the time-legality check accepts exactly the
midnight-wrapping window `time ≥ 21:00 ∨ time ≤ 05:00` (both boundaries inclusive,
stated in minutes since midnight); in particular 22:00, 04:30 and 05:00 are approved
while 05:01 and 20:59 are rejected. -/
theorem taxi_time_window (s : String) (t : TimeHM)
    (hp : parsePickupTime s = some t) :
    ((is_valid_pickup_time s).1 = true
        ↔ (21 * 60 ≤ t.h * 60 + t.m ∨ t.h * 60 + t.m ≤ 5 * 60))
      ∧ (is_valid_pickup_time "22:00").1 = true
      ∧ (is_valid_pickup_time "04:30").1 = true
      ∧ (is_valid_pickup_time "05:00").1 = true
      ∧ (is_valid_pickup_time "05:01").1 = false
      ∧ (is_valid_pickup_time "20:59").1 = false := by
  have hb := parsePickupTime_bounds s t hp
  have hiff : (timeLe night_start t || timeLe t morning_end) = true
      ↔ (21 * 60 ≤ t.h * 60 + t.m ∨ t.h * 60 + t.m ≤ 5 * 60) := by
    simp only [timeLe, night_start, morning_end, Bool.or_eq_true, decide_eq_true_eq]
    omega
  refine ⟨?_, by decide, by decide, by decide, by decide, by decide⟩
  simp only [is_valid_pickup_time, hp]
  by_cases hcond : (timeLe night_start t || timeLe t morning_end) = true
  · simp [hcond, hiff.mp hcond]
  · simp only [Bool.not_eq_true] at hcond
    simp [hcond]
    simp only [timeLe, night_start, morning_end, Bool.or_eq_false_iff,
      decide_eq_false_iff_not] at hcond
    omega

/-- C4 witness: the window characterization applied to the parsed time 22:00. -/
theorem taxi_time_window_witness :
    ((is_valid_pickup_time "22:00").1 = true
        ↔ (21 * 60 ≤ 22 * 60 + 0 ∨ 22 * 60 + 0 ≤ 5 * 60))
      ∧ (is_valid_pickup_time "22:00").1 = true
      ∧ (is_valid_pickup_time "04:30").1 = true
      ∧ (is_valid_pickup_time "05:00").1 = true
      ∧ (is_valid_pickup_time "05:01").1 = false
      ∧ (is_valid_pickup_time "20:59").1 = false :=
  taxi_time_window "22:00" ⟨22, 0⟩ (by decide)

/-- C5: the location check approves exactly the strings containing an allow-list
entry — the deny-list branch and the final default both return reject, so nothing
outside the allow-list is ever approved; with the concrete examples of the spec
(the last being an arbitrary unrecognized novel location). -/
theorem taxi_location_allowlist :
    (∀ loc : String,
      is_valid_pickup_location loc
        = VALID_PICKUP_LOCATIONS.any (fun v => containsStr v loc))
      ∧ is_valid_pickup_location "中关村资本大厦" = true
      ∧ is_valid_pickup_location "中关村资本大厦北门" = true
      ∧ is_valid_pickup_location "中关村" = false
      ∧ is_valid_pickup_location "望京" = false
      ∧ is_valid_pickup_location "学清路口" = false := by
  refine ⟨?_, by decide, by decide, by decide, by decide, by decide⟩
  intro loc
  unfold is_valid_pickup_location
  by_cases h : VALID_PICKUP_LOCATIONS.any (fun v => containsStr v loc) = true
  · simp [h]
  · simp only [Bool.not_eq_true] at h
    simp [h]

/-- C6: `reimburse_taxi` checks the ledger first, then location, then time; the
first failing check determines the single returned reason (the `TaxiReason` type
carries exactly one reason, so reasons are never accumulated), and an id absent from
the ledger is rejected as invalid whatever the location and time arguments are. -/
theorem reimburse_check_order (ids : List String) (rid loc t : String) :
    (rid ∉ ids →
      reimburse_taxi ids rid loc t = TaxiDecision.rejected rid TaxiReason.invalidRequestId)
      ∧ (rid ∈ ids → is_valid_pickup_location loc = false →
          reimburse_taxi ids rid loc t = TaxiDecision.rejected rid (TaxiReason.badLocation loc))
      ∧ (rid ∈ ids → is_valid_pickup_location loc = true → (is_valid_pickup_time t).1 = false →
          reimburse_taxi ids rid loc t
            = TaxiDecision.rejected rid (TaxiReason.badTime (is_valid_pickup_time t).2))
      ∧ (rid ∈ ids → is_valid_pickup_location loc = true → (is_valid_pickup_time t).1 = true →
          reimburse_taxi ids rid loc t = TaxiDecision.approved rid) := by
  refine ⟨fun h => ?_, fun h1 h2 => ?_, fun h1 h2 h3 => ?_, fun h1 h2 h3 => ?_⟩
  · simp [reimburse_taxi, h]
  · simp [reimburse_taxi, h1, h2]
  · simp [reimburse_taxi, h1, h2, h3]
  · simp [reimburse_taxi, h1, h2, h3]

/-- C6 witness: an id never added to the ledger is rejected as invalid even with a
compliant location and time. -/
theorem reimburse_check_order_witness :
    reimburse_taxi [] "request_id_1" "中关村资本大厦" "22:00"
      = TaxiDecision.rejected "request_id_1" TaxiReason.invalidRequestId :=
  (reimburse_check_order [] "request_id_1" "中关村资本大厦" "22:00").1 (by simp)

/-!
Decimal-representation helpers used to settle the freshness of created request ids:
`Nat.repr` (hence `str(...)` of the drawn number) is injective.
-/

/-- The fuel-based digit printer of core agrees with `natChars` when the fuel suffices. -/
theorem toDigitsCore_eq_natChars (fuel : Nat) :
    ∀ (n : Nat) (acc : List Char), n < fuel →
      Nat.toDigitsCore 10 fuel n acc = natChars n ++ acc := by
  induction fuel with
  | zero => intro n acc h; omega
  | succ f ih =>
    intro n acc h
    by_cases h10 : n / 10 = 0
    · have hlt : n < 10 := by omega
      simp only [Nat.toDigitsCore, h10, if_pos]
      rw [natChars, if_pos hlt, Nat.mod_eq_of_lt hlt]
      rfl
    · simp only [Nat.toDigitsCore, h10, if_neg, if_false]
      have hrec : n / 10 < f := by
        have hdlt : n / 10 < n := Nat.div_lt_self (by omega) (by omega)
        omega
      have hnc : natChars n = natChars (n / 10) ++ [Nat.digitChar (n % 10)] := by
        rw [natChars]
        rw [if_neg (by omega)]
      rw [ih (n / 10) _ hrec, hnc]
      simp [List.append_assoc]

/-- Decoding a digit character below 10 recovers the digit. -/
theorem charDigit_digitChar (d : Nat) (h : d < 10) : charDigit (Nat.digitChar d) = d := by
  interval_cases d <;> rfl

/-- The digit characters of `n` decode back to `n`. -/
theorem digitsVal_natChars (n : Nat) : digitsVal (natChars n) = n := by
  induction n using Nat.strong_induction_on with
  | _ n ih =>
    by_cases h : n < 10
    · rw [natChars, if_pos h]
      simp [digitsVal, charDigit_digitChar n h]
    · rw [natChars, if_neg h]
      have hd : n / 10 < n := Nat.div_lt_self (by omega) (by omega)
      have hmod : n % 10 < 10 := Nat.mod_lt _ (by omega)
      simp only [digitsVal, List.foldl_append, List.foldl_cons, List.foldl_nil]
      have := ih (n / 10) hd
      simp only [digitsVal] at this
      rw [this, charDigit_digitChar _ hmod]
      omega

/-- Distinct naturals have distinct decimal string representations. -/
theorem nat_toString_inj (m n : Nat) (h : toString m = toString n) : m = n := by
  have hrepr : ∀ k : Nat, toString k = (natChars k).asString := by
    intro k
    show Nat.repr k = _
    unfold Nat.repr Nat.toDigits
    rw [toDigitsCore_eq_natChars (k + 1) k [] (by omega)]
    simp
  rw [hrepr m, hrepr n] at h
  have hl : natChars m = natChars n := congrArg String.data h
  have := digitsVal_natChars m
  rw [hl, digitsVal_natChars] at this
  omega

/-- C8 counterexample: `random.randint` may return the same draw twice, and then two
distinct `create_taxi_request_form` calls (the second on the ledger produced by the
first) return the same request id — uniqueness is not guaranteed by the code. -/
theorem create_collision :
    (create_taxi_request_form 1234567 []).1
      = (create_taxi_request_form 1234567 (create_taxi_request_form 1234567 []).2).1 := rfl

/-- C8 amended: a created id is immediately a member of the returned ledger, and two
create calls return distinct ids exactly when their random draws are distinct (so
uniqueness holds only conditionally on the 9-million-value draws not repeating). -/
theorem create_fresh_ids (r1 r2 : Nat) (ids1 ids2 : List String) :
    ((create_taxi_request_form r1 ids1).1 = (create_taxi_request_form r2 ids2).1 ↔ r1 = r2)
      ∧ (create_taxi_request_form r1 ids1).1 ∈ (create_taxi_request_form r1 ids1).2 := by
  constructor
  · constructor
    · intro h
      simp only [create_taxi_request_form] at h
      have hd := congrArg String.data h
      simp only [String.data_append] at hd
      have hs := List.append_cancel_left hd
      exact nat_toString_inj _ _ (String.ext hs)
    · intro h
      subst h
      rfl
  · exact List.mem_insert_self _ _
